import Mathlib

/-!
Verification of the arduino_due control core: a shallow embedding of the
transport protocol engine (`WifiLink`) and the step controller
(`CarController`) of the repository, together with theorems checking the
specification's claims against it.

Machine integers are modelled as `Nat` with explicit reduction modulo
`2 ^ w` wherever the C code's fixed-width arithmetic can overflow.  Byte
buffers are `List Nat` (each element a byte value `< 256`), C strings are
`List Char`, and the byte-oriented serial input is a list of
`(arrival time, character)` pairs with times relative to the start of the
read call.
-/

set_option maxRecDepth 1000000

/-! ## Data model (include/types.h) -/

/-- `Command` (types.h): name plus optional override duration, `0` meaning
"use the dictionary's base duration".  The C `char name[16]` is modelled as a
character list; the 15-character capacity shows up as explicit truncation in
the operations that fill it. -/
structure Command where
  name : List Char
  durationMs : Nat
deriving DecidableEq, Repr

/-- `CommandConfig` (types.h): a named motion profile. -/
structure CommandConfig where
  name : List Char
  leftSpeed : Int
  rightSpeed : Int
  baseDurationMs : Nat
deriving DecidableEq, Repr

/-- `ImageSnapshot` (types.h).  A C null `buffer` pointer and a zero
`bufferSize` are both modelled by the empty list. -/
structure ImageSnapshot where
  available : Bool
  width : Nat
  height : Nat
  buffer : List Nat
deriving DecidableEq, Repr

/-- `LogEntry` (types.h), restricted to the fields the claims are about;
the timestamp and the floating-point `distanceCm` field carry no logic and
are omitted. -/
structure LogEntry where
  commandName : List Char
  durationMs : Nat
  lightRaw : Int
  isDark : Bool
  obstacle : Bool
  imageSent : Bool
deriving DecidableEq, Repr

/-- The image descriptor of the telemetry line emitted by
`WifiLink::sendData` (the `"image"` object of the `DATA` JSON line). -/
structure TelemetryImage where
  available : Bool
  width : Nat
  height : Nat
deriving DecidableEq, Repr

/-! ## base64 (src/base64.cpp) -/

/-- The encoding alphabet `base64_chars` (base64.cpp lines 3-6). -/
def base64_chars : List Char :=
  "ABCDEFGHIJKLMNOPQRSTUVWXYZabcdefghijklmnopqrstuvwxyz0123456789+/".toList

/-- Table lookup `base64_chars[v]` (in-range uses never hit the default). -/
def b64char (v : Nat) : Char := base64_chars.getD v '?'

/-- `base64_encode_length` (base64.cpp lines 8-10): four characters per
three-byte group plus one byte for the null terminator. -/
def base64_encode_length (inputLen : Nat) : Nat := ((inputLen + 2) / 3) * 4 + 1

/-- The four output characters one loop iteration of `base64_encode` emits
for the 24-bit group `t` (base64.cpp lines 30-35). -/
def quadOf (t : Nat) : List Char :=
  [b64char ((t >>> 18) &&& 0x3F), b64char ((t >>> 12) &&& 0x3F),
   b64char ((t >>> 6) &&& 0x3F), b64char (t &&& 0x3F)]

/-- The encoding loop of `base64_encode` (base64.cpp lines 25-36): bytes are
consumed three at a time, missing bytes of a final partial group read as
zero. -/
def encodeTriples : List Nat → List Char
  | [] => []
  | [a] => quadOf (a <<< 16)
  | [a, b] => quadOf ((a <<< 16) + (b <<< 8))
  | a :: b :: c :: rest => quadOf ((a <<< 16) + (b <<< 8) + c) ++ encodeTriples rest

/-- The padding pass of `base64_encode` (base64.cpp lines 38-45): for
`inputLen % 3 = 1` the last two characters are overwritten with `'='`, for
`inputLen % 3 = 2` the last one. -/
def padFix (m : Nat) (cs : List Char) : List Char :=
  if m = 1 then cs.dropLast.dropLast ++ ['=', '=']
  else if m = 2 then cs.dropLast ++ ['='] else cs

/-- `base64_encode` (base64.cpp lines 12-49).  `none` models the `return 0`
failure when the output buffer is too small; the null-pointer checks have no
list analogue.  `outputLen` is the C `outputLen` argument. -/
def base64_encode (input : List Nat) (outputLen : Nat) : Option (List Char) :=
  if outputLen < base64_encode_length input.length then none
  else some (padFix (input.length % 3) (encodeTriples input))

/-- Value of a character in the base64 alphabet (position in
`base64_chars`), used by the reference decoder. -/
def b64val (c : Char) : Nat := base64_chars.indexOf c

/-- Modelled from the spec: the repository contains no base64 decoder (the
gateway side is external), so this is the standard reference decoder for the
4-characters-per-3-bytes alphabet with `'='` padding, against which the
encoder is checked. -/
def base64_decode : List Char → List Nat
  | c1 :: c2 :: c3 :: c4 :: rest =>
    if c3 = '=' then
      [((b64val c1 <<< 18) + (b64val c2 <<< 12)) >>> 16]
    else if c4 = '=' then
      let t := (b64val c1 <<< 18) + (b64val c2 <<< 12) + (b64val c3 <<< 6)
      [t >>> 16, (t >>> 8) &&& 0xFF]
    else
      let t := (b64val c1 <<< 18) + (b64val c2 <<< 12) + (b64val c3 <<< 6) + b64val c4
      (t >>> 16) :: ((t >>> 8) &&& 0xFF) :: (t &&& 0xFF) :: base64_decode rest
  | _ => []

/-! ## CRC16-CCITT (WifiLink.cpp lines 23-32) -/

/-- One iteration of the inner loop of `WifiLink::crc16_ccitt`
(WifiLink.cpp line 28); the assignment to the `uint16_t crc` truncates
modulo `2 ^ 16`. -/
def crcShift (c : Nat) : Nat :=
  if c &&& 0x8000 ≠ 0 then ((c <<< 1) ^^^ 0x1021) % 65536 else (c <<< 1) % 65536

/-- One iteration of the outer loop of `WifiLink::crc16_ccitt`
(WifiLink.cpp lines 26-29): xor the byte into the high half of the
register, then eight shift steps. -/
def crcByte (c b : Nat) : Nat := crcShift^[8] ((c ^^^ (b <<< 8)) % 65536)

/-- `WifiLink::crc16_ccitt` (WifiLink.cpp lines 23-32) over a byte list. -/
def crc16_ccitt (data : List Nat) : Nat := data.foldl crcByte 0xFFFF

/-- Modelled from the spec: one step of the reference bit-serial CRC16-CCITT
("polynomial 0x1021, initial value 0xFFFF, MSB-first, no final XOR"),
feeding a single message bit: shift left and apply the polynomial exactly
when the shifted-out register bit differs from the message bit. -/
def crcRefBit (c : Nat) (bit : Bool) : Nat :=
  if c.testBit 15 ≠ bit then ((c <<< 1) ^^^ 0x1021) % 65536 else (c <<< 1) % 65536

/-- Reference processing of one byte, MSB first: bits 7 down to 0. -/
def crcRefByte (c b : Nat) : Nat :=
  (List.range 8).foldl (fun acc k => crcRefBit acc (b.testBit (7 - k))) c

/-- Modelled from the spec: the reference bit-serial CRC16-CCITT of a byte
sequence. -/
def crc16_ref (data : List Nat) : Nat := data.foldl crcRefByte 0xFFFF

/-! ## Transport protocol engine (WifiLink.cpp)

Serial input to a read call is a list of `(arrival time, character)` pairs,
times in milliseconds relative to the start of the call and listed in
arrival order. -/

/-- Protocol constants (include/WifiLink.h lines 46-49). -/
def CHUNK_RAW_SIZE : Nat := 192

/-- Encoded chunk size (include/WifiLink.h line 47). -/
def CHUNK_BASE64_SIZE : Nat := 256

/-- Maximum attempts per chunk (include/WifiLink.h line 48). -/
def MAX_RETRIES : Nat := 3

/-- Acknowledgement / ready-handshake timeout (include/WifiLink.h line 49). -/
def ACK_TIMEOUT_MS : Nat := 500

/-- `WifiLink::readLine` (WifiLink.cpp lines 202-227) on a timed character
stream: accumulate characters arriving strictly before the deadline, skip
`'\r'`, drop characters once `bufferSize - 1` are held, succeed at the
first `'\n'` if the line is nonempty.  Result: (return value, buffer
contents, time at which the call returns). -/
def readLine (bufferSize timeoutMs : Nat) :
    List (Nat × Char) → List Char → Bool × List Char × Nat
  | [], acc => (false, acc, timeoutMs)
  | (t, c) :: rest, acc =>
    if timeoutMs ≤ t then (false, acc, timeoutMs)
    else if c = '\n' then (!acc.isEmpty, acc, t)
    else if c = '\r' then readLine bufferSize timeoutMs rest acc
    else if acc.length < bufferSize - 1 then readLine bufferSize timeoutMs rest (acc ++ [c])
    else readLine bufferSize timeoutMs rest acc

/-- First index at which `pat` occurs as a contiguous sublist (C `strstr`). -/
def findSub : List Char → List Char → Option Nat
  | l, pat =>
    if l.take pat.length = pat then some 0
    else match l with
      | [] => none
      | _ :: rest => (findSub rest pat).map (· + 1)

/-- First index of character `c` (C `strchr`). -/
def charIndex (c : Char) : List Char → Option Nat
  | [] => none
  | x :: rest => if x = c then some 0 else (charIndex c rest).map (· + 1)

/-- Leading decimal digits as a number (C `atoi`/`atol` on the gateway's
nonnegative numeric fields; parsing stops at the first non-digit, no digits
give 0). -/
def parseDigits : List Char → Nat → Nat
  | [], acc => acc
  | c :: rest, acc =>
    if c.isDigit then parseDigits rest (acc * 10 + (c.toNat - 48)) else acc

/-- The JSON key the command parser searches for (WifiLink.cpp line 164). -/
def kCommandKey : List Char := "\"command\":\"".toList

/-- The duration key (WifiLink.cpp line 183). -/
def kDurationKey : List Char := "\"duration_ms\":".toList

/-- `WifiLink::waitForCommand` (WifiLink.cpp lines 123-191), hand-rolled
parser branch: clear the out-parameter, read one line within `timeoutMs`,
require the `"CMD "` line tag, locate `"command":"` and its closing quote
(name truncated to 15 characters, the capacity of `Command::name`), then
the optional `"duration_ms":` number.  Result: (return value, out-parameter
contents, time at which the call returns). -/
def waitForCommand (timeoutMs : Nat) (input : List (Nat × Char)) :
    Bool × Command × Nat :=
  let cmd0 : Command := ⟨[], 0⟩
  let r := readLine 256 timeoutMs input []
  let line := r.2.1
  let tEnd := r.2.2
  if !r.1 then (false, cmd0, tEnd)
  else if line.take 4 ≠ "CMD ".toList then (false, cmd0, tEnd)
  else
    let jsonStr := line.drop 4
    match findSub jsonStr kCommandKey with
    | none => (false, cmd0, tEnd)
    | some i =>
      let tail := jsonStr.drop (i + kCommandKey.length)
      match charIndex '"' tail with
      | none => (false, cmd0, tEnd)
      | some j =>
        let cmdLen := min j 15
        let dur := match findSub jsonStr kDurationKey with
          | none => 0
          | some k => parseDigits (jsonStr.drop (k + kDurationKey.length)) 0
        (true, ⟨tail.take cmdLen, dur⟩, tEnd)

/-- `WifiLink::waitForAck` (WifiLink.cpp lines 321-350), at line
granularity: `lines` are the complete lines assembled within the 500 ms
window, in order.  A matching `ACK` succeeds, a `NAK` fails at once, any
other line is skipped, running out of lines is the timeout. -/
def waitForAck (expectedChunkIdx : Nat) : List (List Char) → Bool
  | [] => false
  | l :: rest =>
    if l.take 4 = "ACK ".toList then
      if parseDigits (l.drop 4) 0 = expectedChunkIdx then true
      else waitForAck expectedChunkIdx rest
    else if l.take 4 = "NAK ".toList then false
    else waitForAck expectedChunkIdx rest

/-- The retry loop of `WifiLink::sendChunkWithAck` (WifiLink.cpp lines
295-316); `attemptLines r` are the lines arriving during attempt `r`'s ack
window.  Result: (success, number of attempts made, i.e. chunk lines
sent). -/
def sendChunkLoop (expectedChunkIdx : Nat) (attemptLines : Nat → List (List Char)) :
    Nat → Nat → Bool × Nat
  | _, 0 => (false, 0)
  | r, fuel + 1 =>
    if waitForAck expectedChunkIdx (attemptLines r) then (true, 1)
    else
      let res := sendChunkLoop expectedChunkIdx attemptLines (r + 1) fuel
      (res.1, res.2 + 1)

/-- `WifiLink::sendChunkWithAck` (WifiLink.cpp lines 294-319): up to
`MAX_RETRIES` attempts, each resending the chunk line and waiting for its
acknowledgement. -/
def sendChunkWithAck (expectedChunkIdx : Nat) (attemptLines : Nat → List (List Char)) :
    Bool × Nat :=
  sendChunkLoop expectedChunkIdx attemptLines 0 MAX_RETRIES

/-- One protocol line emitted on `Serial1` by the chunked transfer. -/
inductive LinkMsg where
  | imgStart (width height chunkCount crc : Nat)
  | imgChunk (idx : Nat) (payload : List Char)
  | imgAbort
  | imgEnd
deriving DecidableEq, Repr

/-- Length of chunk `i` of a `size`-byte payload (WifiLink.cpp line 271). -/
def chunkLenOf (size i : Nat) : Nat :=
  if i * CHUNK_RAW_SIZE + CHUNK_RAW_SIZE ≤ size then CHUNK_RAW_SIZE
  else size - i * CHUNK_RAW_SIZE

/-- The raw bytes of chunk `i`: `CHUNK_RAW_SIZE` bytes starting at
`offset = chunkIdx * CHUNK_RAW_SIZE`, the last chunk possibly shorter
(WifiLink.cpp lines 270-271). -/
def chunkSlice (data : List Nat) (i : Nat) : List Nat :=
  (data.drop (i * CHUNK_RAW_SIZE)).take (chunkLenOf data.length i)

/-- The chunk loop of `WifiLink::sendImageChunked` (WifiLink.cpp lines
269-287) over the remaining chunk indices: slice the chunk, encode it into
the `CHUNK_BASE64_SIZE + 1` buffer, send with acknowledgement (the chunk
line re-emitted once per attempt), abort on failure.  Result: (emitted
lines, success). -/
def sendChunks (data : List Nat) (ackLines : Nat → Nat → List (List Char)) :
    List Nat → List LinkMsg × Bool
  | [] => ([LinkMsg.imgEnd], true)
  | i :: rest =>
    match base64_encode (chunkSlice data i) (CHUNK_BASE64_SIZE + 1) with
    | none => ([], false)
    | some enc =>
      let s := sendChunkWithAck i (ackLines i)
      if s.1 then
        let r := sendChunks data ackLines rest
        (List.replicate s.2 (LinkMsg.imgChunk i enc) ++ r.1, r.2)
      else
        (List.replicate s.2 (LinkMsg.imgChunk i enc) ++ [LinkMsg.imgAbort], false)

/-- Chunk count `(size + CHUNK_RAW_SIZE - 1) / CHUNK_RAW_SIZE`
(WifiLink.cpp line 236). -/
def totalChunksOf (size : Nat) : Nat := (size + CHUNK_RAW_SIZE - 1) / CHUNK_RAW_SIZE

/-- `WifiLink::sendImageChunked` (WifiLink.cpp lines 229-292): flush stale
input, emit the `IMG_START` line, wait for the ready line (`ready` is the
result of the `readLine` call: `none` when it returned false, i.e. timeout
or empty line), require the `IMG_READY` 9-character head, then run the
chunk loop.  Result: (success, emitted lines). -/
def sendImageChunked (data : List Nat) (width height : Nat)
    (ready : Option (List Char)) (ackLines : Nat → Nat → List (List Char)) :
    Bool × List LinkMsg :=
  let startMsg := LinkMsg.imgStart width height (totalChunksOf data.length) (crc16_ccitt data)
  match ready with
  | none => (false, [startMsg])
  | some l =>
    if l.take 9 = "IMG_READY".toList then
      let r := sendChunks data ackLines (List.range (totalChunksOf data.length))
      (r.2, startMsg :: r.1)
    else (false, [startMsg])

/-- `WifiLink::sendData` (WifiLink.cpp lines 34-121): run the chunked
transfer when an image is present, then emit the telemetry line whose image
descriptor reports the transfer result (zero width and height on failure).
Result: (telemetry image descriptor, transfer success, chunked-transfer
lines). -/
def sendData (image : ImageSnapshot) (ready : Option (List Char))
    (ackLines : Nat → Nat → List (List Char)) :
    TelemetryImage × Bool × List LinkMsg :=
  let r :=
    if image.available = true ∧ image.buffer ≠ [] then
      sendImageChunked image.buffer image.width image.height ready ackLines
    else (false, [])
  (⟨r.1, if r.1 then image.width else 0, if r.1 then image.height else 0⟩, r)

/-! ## Command dictionary (CommandDictionary.cpp) -/

/-- `CommandDictionary::getConfig` via `findCommandIndex`
(CommandDictionary.cpp lines 18-25, 119-126): first entry whose name
compares equal, `none` when absent (the C out-parameter is then left
untouched, which the callers model explicitly). -/
def getConfig (dict : List CommandConfig) (name : List Char) : Option CommandConfig :=
  dict.find? (fun c => c.name == name)

/-- `CommandDictionary::initDefaultCommands`
(CommandDictionary.cpp lines 61-93). -/
def defaultCommands : List CommandConfig :=
  [⟨"FORWARD".toList, 1, 1, 3000⟩,
   ⟨"BACKWARD".toList, -1, -1, 3000⟩,
   ⟨"LEFT".toList, 0, 1, 3000⟩,
   ⟨"RIGHT".toList, 1, 0, 3000⟩,
   ⟨"STOP".toList, 0, 0, 3000⟩]

/-! ## Step controller (CarController.cpp) -/

/-- The controller states (include/CarController.h lines 42-48). -/
inductive State where
  | stInit
  | collectSensors
  | sendToServer
  | waitCommand
  | executeCommand
deriving DecidableEq, Repr

/-- `COMMAND_WAIT_TIMEOUT_MS` (include/CarController.h line 72). -/
def COMMAND_WAIT_TIMEOUT_MS : Nat := 5000

/-- The per-step data `handleStateWaitCommand` resolves before entering
`ExecuteCommand`: `currentCommand`, `currentCommandConfig`,
`currentCommandDuration` (CarController.cpp lines 142-158, 176-179). -/
structure ResolvedStep where
  command : Command
  config : CommandConfig
  durationMs : Nat
deriving DecidableEq, Repr

/-- The command-resolution block of `CarController::handleStateWaitCommand`
(CarController.cpp lines 142-158): look the name up, on a miss substitute
the `"STOP"` profile and rewrite the recorded name to `"STOP"` (keeping the
previous `currentCommandConfig` if even that lookup missed, as the C
out-parameter would); the duration is the override when nonzero, else the
profile's base duration. -/
def resolveCommand (dict : List CommandConfig) (prevConfig : CommandConfig)
    (cmd : Command) : ResolvedStep :=
  let rc :=
    match getConfig dict cmd.name with
    | some cfg => (cmd, cfg)
    | none =>
      ({ cmd with name := "STOP".toList.take 15 },
       (getConfig dict "STOP".toList).getD prevConfig)
  { command := rc.1, config := rc.2,
    durationMs := if cmd.durationMs = 0 then rc.2.baseDurationMs else cmd.durationMs }

/-- `CarController::handleStateWaitCommand` (CarController.cpp lines
137-183) at one tick: `received` is the result of this tick's
`waitForCommand` poll, `now` the value of `millis()` at the timeout check.
`some r` means the tick transitions to `ExecuteCommand` carrying `r`;
`none` means the controller stays in `WaitCommand`. -/
def handleStateWaitCommand (dict : List CommandConfig) (prevConfig : CommandConfig)
    (defaultStepDurationMs : Nat) (commandWaitStartMillis now : Nat)
    (received : Option Command) : Option ResolvedStep :=
  match received with
  | some cmd => some (resolveCommand dict prevConfig cmd)
  | none =>
    if COMMAND_WAIT_TIMEOUT_MS ≤ now - commandWaitStartMillis then
      some { command := ⟨"STOP".toList.take 15, defaultStepDurationMs⟩,
             config := (getConfig dict "STOP".toList).getD prevConfig,
             durationMs := defaultStepDurationMs }
    else none

/-- What one tick of `CarController::handleStateExecuteCommand`
(CarController.cpp lines 185-203) does: whether `applyCommand` ran (the
`millis() - stateStartMillis < 10` window), the value of
`commandExecStartMillis` after the tick, and whether the finish branch ran
(motor stopped, step logged, state changed back to `CollectSensors`). -/
structure ExecTick where
  applied : Bool
  execStart : Nat
  finished : Bool
  motorStopped : Bool
  logged : Bool
  nextState : Option State
deriving DecidableEq, Repr

/-- `CarController::handleStateExecuteCommand` (CarController.cpp lines
185-203) at one tick occurring at time `now`, with `stateStartMillis` the
time `changeState(STATE_EXECUTE_COMMAND)` ran and `execStart0` the stale
`commandExecStartMillis` from before the tick. -/
def handleStateExecuteCommand (stateStartMillis execStart0 durationMs now : Nat) :
    ExecTick :=
  let applied := decide (now - stateStartMillis < 10)
  let execStart := if applied then now else execStart0
  let finished := decide (durationMs ≤ now - execStart)
  { applied := applied, execStart := execStart, finished := finished,
    motorStopped := finished, logged := finished,
    nextState := if finished then some State.collectSensors else none }

/-- Number of `motorController.applyCommand` calls over a run of
`ExecuteCommand` ticks at the given times, stopping when the finish branch
fires (CarController.cpp lines 185-203 iterated). -/
def execApplyCount (stateStartMillis durationMs : Nat) :
    Nat → List Nat → Nat
  | _, [] => 0
  | execStart0, now :: rest =>
    let r := handleStateExecuteCommand stateStartMillis execStart0 durationMs now
    (if r.applied then 1 else 0) +
      if r.finished then 0 else execApplyCount stateStartMillis durationMs r.execStart rest

/-- `CarController::logCurrentStep` (CarController.cpp lines 210-231):
the appended entry copies the resolved command name (truncated to the
15-character field), the resolved duration, the sensor fields — and sets
`imageSent` to `currentImageSnapshot.available` (line 220). -/
def logCurrentStep (currentCommand : Command) (currentCommandDuration : Nat)
    (lightRaw : Int) (isDark obstacle : Bool)
    (currentImageSnapshot : ImageSnapshot) : LogEntry :=
  { commandName := currentCommand.name.take 15,
    durationMs := currentCommandDuration,
    lightRaw := lightRaw, isDark := isDark, obstacle := obstacle,
    imageSent := currentImageSnapshot.available }

/-! ## Helper lemmas -/

theorem take_15_stop : "STOP".toList.take 15 = "STOP".toList := rfl

/-- A found config is a dictionary member. -/
theorem getConfig_mem {dict : List CommandConfig} {name : List Char}
    {cfg : CommandConfig} (h : getConfig dict name = some cfg) : cfg ∈ dict :=
  List.mem_of_find?_eq_some h

/-! ## Claims -/

/-- C1: the claim says the log entry appended at the end of `ExecuteCommand`
records whether the image was successfully delivered to the gateway.  The
code records `currentImageSnapshot.available` — capture availability — in
`LogEntry::imageSent` (CarController.cpp line 220), and
`WifiLink::sendData` returns `void`, so the transfer result never reaches
the controller.  At this input the image is captured but the gateway never
answers the ready handshake: the transfer fails and the telemetry line
reports `available = false`, yet the appended log entry records
`imageSent = true`. -/
theorem C1_log_records_capture_not_delivery :
    (sendData ⟨true, 80, 60, [1, 2, 3, 4]⟩ none (fun _ _ => [])).2.1 = false ∧
    (sendData ⟨true, 80, 60, [1, 2, 3, 4]⟩ none (fun _ _ => [])).1.available = false ∧
    (logCurrentStep ⟨"STOP".toList, 3000⟩ 3000 700 false false
        ⟨true, 80, 60, [1, 2, 3, 4]⟩).imageSent = true := by
  decide

/-- C3: resolution of a received command (CarController.cpp lines 142-158):
a name absent from the dictionary resolves to the dictionary's `"STOP"`
profile with the recorded name rewritten to `"STOP"`; a present name
resolves to its own profile; the effective duration is the override when
nonzero, else the resolved profile's base duration, and is never zero when
every profile's base duration is nonzero (as in the shipped dictionary). -/
theorem C3_lookup_miss_and_duration_resolution (dict : List CommandConfig)
    (prevConfig stopCfg : CommandConfig) (cmd : Command)
    (hstop : getConfig dict "STOP".toList = some stopCfg)
    (hpos : ∀ c ∈ dict, c.baseDurationMs ≠ 0) :
    (getConfig dict cmd.name = none →
      (resolveCommand dict prevConfig cmd).config = stopCfg ∧
      (resolveCommand dict prevConfig cmd).command.name = "STOP".toList) ∧
    (∀ cfg, getConfig dict cmd.name = some cfg →
      (resolveCommand dict prevConfig cmd).config = cfg ∧
      (resolveCommand dict prevConfig cmd).command.name = cmd.name) ∧
    (resolveCommand dict prevConfig cmd).durationMs =
      (if cmd.durationMs = 0 then (resolveCommand dict prevConfig cmd).config.baseDurationMs
       else cmd.durationMs) ∧
    (resolveCommand dict prevConfig cmd).durationMs ≠ 0 := by
  have hstop' : getConfig dict ['S', 'T', 'O', 'P'] = some stopCfg := hstop
  cases h : getConfig dict cmd.name with
  | none =>
    refine ⟨fun _ => ?_, fun cfg hcfg => by simp [h] at hcfg, ?_, ?_⟩
    · simp [resolveCommand, h, hstop']
    · simp [resolveCommand, h, hstop']
    · have hbase := hpos stopCfg (getConfig_mem hstop)
      by_cases hd : cmd.durationMs = 0 <;>
        simp [resolveCommand, h, hstop', hd, hbase]
  | some cfg =>
    refine ⟨fun hn => by simp [h] at hn, fun cfg2 hcfg2 => ?_, ?_, ?_⟩
    · simp only [Option.some.injEq] at hcfg2
      subst hcfg2
      exact ⟨by simp [resolveCommand, h], by simp [resolveCommand, h]⟩
    · simp [resolveCommand, h]
    · have hbase := hpos cfg (getConfig_mem h)
      by_cases hd : cmd.durationMs = 0 <;> simp [resolveCommand, h, hd, hbase]

/-- Witness for C3 at the shipped default dictionary and the unknown
command name `"FLY"` with a zero override. -/
theorem C3_witness :
    (getConfig defaultCommands "STOP".toList = some ⟨"STOP".toList, 0, 0, 3000⟩) ∧
    (resolveCommand defaultCommands ⟨[], 0, 0, 0⟩ ⟨"FLY".toList, 0⟩).config =
      ⟨"STOP".toList, 0, 0, 3000⟩ ∧
    (resolveCommand defaultCommands ⟨[], 0, 0, 0⟩ ⟨"FLY".toList, 0⟩).command.name =
      "STOP".toList ∧
    (resolveCommand defaultCommands ⟨[], 0, 0, 0⟩ ⟨"FLY".toList, 0⟩).durationMs ≠ 0 := by
  have h := C3_lookup_miss_and_duration_resolution defaultCommands ⟨[], 0, 0, 0⟩
    ⟨"STOP".toList, 0, 0, 3000⟩ ⟨"FLY".toList, 0⟩ (by decide) (by decide)
  have hn : getConfig defaultCommands ("FLY".toList) = none := by decide
  exact ⟨by decide, (h.1 hn).1, (h.1 hn).2, h.2.2.2⟩

/-- C4 counterexample: the claim says the resolved motion profile is issued
to the motor exactly once, on the first tick after entry.  The code guards
the issue with `millis() - stateStartMillis < 10` (CarController.cpp line
187), so with entry at time 0 and ticks at 0 ms and 5 ms the profile is
issued twice, and with ticks at 20 ms and 25 ms (first tick arriving 20 ms
after entry) it is never issued at all. -/
theorem C4_counterexample_apply_not_exactly_once :
    execApplyCount 0 3000 0 [0, 5] = 2 ∧ execApplyCount 0 3000 0 [20, 25] = 0 := by
  decide

/-- C4 amended: on every `ExecuteCommand` tick, the profile is issued (and
the execution start time recorded) exactly when the tick occurs less than
10 ms after entry — hence at least once if the first tick falls in that
window, possibly more than once; on every tick the elapsed time since the
recorded start is checked against the resolved duration, and once it has
elapsed the motor is stopped, the step is logged, and the state returns to
`CollectSensors`. -/
theorem C4_execute_tick_characterization
    (stateStartMillis execStart0 durationMs now : Nat)
    (h1 : stateStartMillis ≤ now) (h2 : execStart0 ≤ now) :
    ((handleStateExecuteCommand stateStartMillis execStart0 durationMs now).applied = true ↔
      now < stateStartMillis + 10) ∧
    (handleStateExecuteCommand stateStartMillis execStart0 durationMs now).execStart =
      (if now < stateStartMillis + 10 then now else execStart0) ∧
    ((handleStateExecuteCommand stateStartMillis execStart0 durationMs now).finished = true ↔
      (handleStateExecuteCommand stateStartMillis execStart0 durationMs now).execStart
        + durationMs ≤ now) ∧
    (handleStateExecuteCommand stateStartMillis execStart0 durationMs now).motorStopped =
      (handleStateExecuteCommand stateStartMillis execStart0 durationMs now).finished ∧
    (handleStateExecuteCommand stateStartMillis execStart0 durationMs now).logged =
      (handleStateExecuteCommand stateStartMillis execStart0 durationMs now).finished ∧
    (handleStateExecuteCommand stateStartMillis execStart0 durationMs now).nextState =
      (if (handleStateExecuteCommand stateStartMillis execStart0 durationMs now).finished
       then some State.collectSensors else none) := by
  by_cases ha : now - stateStartMillis < 10 <;>
    by_cases hf : now < stateStartMillis + 10 <;>
    simp [handleStateExecuteCommand, ha, hf] <;> omega

/-- Witness for C4 amended at entry time 0, stale start 0, duration
3000 ms, tick at 4 ms. -/
theorem C4_witness :
    ((handleStateExecuteCommand 0 0 3000 4).applied = true ↔ (4 : Nat) < 0 + 10) ∧
    (handleStateExecuteCommand 0 0 3000 4).execStart =
      (if (4 : Nat) < 0 + 10 then 4 else 0) ∧
    ((handleStateExecuteCommand 0 0 3000 4).finished = true ↔
      (handleStateExecuteCommand 0 0 3000 4).execStart + 3000 ≤ 4) ∧
    (handleStateExecuteCommand 0 0 3000 4).motorStopped =
      (handleStateExecuteCommand 0 0 3000 4).finished ∧
    (handleStateExecuteCommand 0 0 3000 4).logged =
      (handleStateExecuteCommand 0 0 3000 4).finished ∧
    (handleStateExecuteCommand 0 0 3000 4).nextState =
      (if (handleStateExecuteCommand 0 0 3000 4).finished
       then some State.collectSensors else none) :=
  C4_execute_tick_characterization 0 0 3000 4 (by decide) (by decide)

/-- C5 counterexample: the claim says the transfer aborts whenever the line
received is not `IMG_READY`.  The code checks only the 9-character head
(`strncmp(readyBuf, "IMG_READY", 9)`, WifiLink.cpp line 261), so the line
`"IMG_READYX"` — which is not `IMG_READY` — lets the transfer proceed, and
here it completes successfully. -/
theorem C5_counterexample_ready_head_match :
    "IMG_READYX".toList ≠ "IMG_READY".toList ∧
    (sendImageChunked [0] 80 60 (some "IMG_READYX".toList)
      (fun _ _ => ["ACK 0".toList])).1 = true := by
  decide

/-- C5 amended: if the ready read times out (or yields an empty line), or
the line received does not begin with the 9 characters `IMG_READY`, the
whole image transfer aborts, and the telemetry line is still emitted with
`image.available = false` and reported width and height zero. -/
theorem C5_handshake_failure_degrades_to_no_image (image : ImageSnapshot)
    (ready : Option (List Char)) (ackLines : Nat → Nat → List (List Char))
    (h : ready = none ∨ ∃ l, ready = some l ∧ l.take 9 ≠ "IMG_READY".toList) :
    (sendData image ready ackLines).2.1 = false ∧
    (sendData image ready ackLines).1.available = false ∧
    (sendData image ready ackLines).1.width = 0 ∧
    (sendData image ready ackLines).1.height = 0 := by
  have hs : (if image.available = true ∧ image.buffer ≠ [] then
      sendImageChunked image.buffer image.width image.height ready ackLines
    else (false, [])).1 = false := by
    split
    · rcases h with h | ⟨l, hl, hne⟩
      · simp [sendImageChunked, h]
      · have hne' : List.take 9 l ≠ ['I', 'M', 'G', '_', 'R', 'E', 'A', 'D', 'Y'] := hne
        simp [sendImageChunked, hl, hne']
    · rfl
  simp only [sendData]
  refine ⟨hs, ?_, ?_, ?_⟩ <;> simp [hs]

/-- Witness for C5 amended: captured image, ready handshake timing out. -/
theorem C5_witness :
    (sendData ⟨true, 80, 60, [7]⟩ none (fun _ _ => [])).2.1 = false ∧
    (sendData ⟨true, 80, 60, [7]⟩ none (fun _ _ => [])).1.available = false ∧
    (sendData ⟨true, 80, 60, [7]⟩ none (fun _ _ => [])).1.width = 0 ∧
    (sendData ⟨true, 80, 60, [7]⟩ none (fun _ _ => [])).1.height = 0 :=
  C5_handshake_failure_degrades_to_no_image ⟨true, 80, 60, [7]⟩ none (fun _ _ => [])
    (Or.inl rfl)

/-- C2: for a run of `WaitCommand` ticks entered at time `entry`, with check
times `t 0, t 1, …` each at most one 100 ms poll budget apart (the
`waitForCommand(cmd, 100)` call of CarController.cpp line 140), no command
ever arriving, and time eventually passing the ceiling: some tick
transitions to `ExecuteCommand` no later than `5000 + 100` ms after entry,
every earlier tick stays in `WaitCommand`, and the transition carries the
synthesized `"STOP"` command with the configurable default duration and the
dictionary's `"STOP"` profile (CarController.cpp lines 173-181). -/
theorem C2_wait_command_timeout_bound (dict : List CommandConfig)
    (prevConfig : CommandConfig) (defaultStepDurationMs entry : Nat) (t : Nat → Nat)
    (h0 : entry ≤ t 0) (h0g : t 0 ≤ entry + 100)
    (hgap : ∀ i, t i ≤ t (i + 1) ∧ t (i + 1) ≤ t i + 100)
    (hprog : ∃ N, entry + COMMAND_WAIT_TIMEOUT_MS ≤ t N) :
    ∃ i, t i ≤ entry + COMMAND_WAIT_TIMEOUT_MS + 100 ∧
      (∀ j < i, handleStateWaitCommand dict prevConfig defaultStepDurationMs
          entry (t j) none = none) ∧
      handleStateWaitCommand dict prevConfig defaultStepDurationMs entry (t i) none =
        some ⟨⟨"STOP".toList, defaultStepDurationMs⟩,
              (getConfig dict "STOP".toList).getD prevConfig, defaultStepDurationMs⟩ := by
  classical
  have hmono : ∀ j, entry ≤ t j := by
    intro j
    induction j with
    | zero => exact h0
    | succ k ih => exact le_trans ih (hgap k).1
  refine ⟨Nat.find hprog, ?_, ?_, ?_⟩
  · rcases Nat.eq_zero_or_pos (Nat.find hprog) with hz | hpos
    · rw [hz]
      simp only [COMMAND_WAIT_TIMEOUT_MS]
      omega
    · have hk : Nat.find hprog - 1 < Nat.find hprog := by omega
      have h1 := Nat.find_min hprog hk
      have h2 := (hgap (Nat.find hprog - 1)).2
      have h3 : Nat.find hprog - 1 + 1 = Nat.find hprog := by omega
      rw [h3] at h2
      simp only [COMMAND_WAIT_TIMEOUT_MS] at h1 ⊢
      omega
  · intro j hj
    have hnot := Nat.find_min hprog hj
    have hj' := hmono j
    simp only [handleStateWaitCommand]
    rw [if_neg]
    simp only [COMMAND_WAIT_TIMEOUT_MS] at hnot ⊢
    omega
  · have hP := Nat.find_spec hprog
    have hf := hmono (Nat.find hprog)
    simp only [handleStateWaitCommand]
    rw [if_pos (by omega), take_15_stop]

/-- Witness for C2: entry at time 0, polls returning at 100, 200, …, the
default dictionary and a 3000 ms default duration. -/
theorem C2_witness :
    ∃ i, 100 * (i + 1) ≤ 0 + COMMAND_WAIT_TIMEOUT_MS + 100 ∧
      (∀ j < i, handleStateWaitCommand defaultCommands ⟨[], 0, 0, 0⟩ 3000
          0 (100 * (j + 1)) none = none) ∧
      handleStateWaitCommand defaultCommands ⟨[], 0, 0, 0⟩ 3000 0 (100 * (i + 1)) none =
        some ⟨⟨"STOP".toList, 3000⟩,
              (getConfig defaultCommands "STOP".toList).getD ⟨[], 0, 0, 0⟩, 3000⟩ := by
  have h := C2_wait_command_timeout_bound defaultCommands ⟨[], 0, 0, 0⟩ 3000 0
    (fun i => 100 * (i + 1)) (by norm_num) (by norm_num)
    (fun i => by refine ⟨?_, ?_⟩ <;> (simp only []; omega)) ⟨50, by decide⟩
  simpa using h

/-- `readLine` returns no later than its deadline: the `'\n'` that completes
a line arrives strictly before it, and every other exit is at the
deadline. -/
theorem readLine_time_le (bufferSize timeoutMs : Nat) (input : List (Nat × Char))
    (acc : List Char) : (readLine bufferSize timeoutMs input acc).2.2 ≤ timeoutMs := by
  induction input generalizing acc with
  | nil => simp [readLine]
  | cons p rest ih =>
    obtain ⟨t, c⟩ := p
    by_cases h1 : timeoutMs ≤ t
    · simp [readLine, h1]
    · by_cases h2 : c = '\n'
      · simp [readLine, h1, h2]
        omega
      · by_cases h3 : c = '\r'
        · simpa [readLine, h1, h2, h3] using ih acc
        · by_cases h4 : acc.length < bufferSize - 1
          · simpa [readLine, h1, h2, h3, h4] using ih (acc ++ [c])
          · simpa [readLine, h1, h2, h3, h4] using ih acc


/-- C7: `waitForCommand` returns within its `timeoutMs` budget (a partial
line pending at the deadline is abandoned, not waited for), and it returns
false exactly on timeout or malformed input: no complete nonempty line
within the timeout, a line without the `"CMD "` tag, a payload without the
`"command":"` key, or one whose command value has no closing quote.  In
every other case it returns a decoded command. -/
theorem C7_receive_command_semantics (timeoutMs : Nat) (input : List (Nat × Char)) :
    (waitForCommand timeoutMs input).2.2 ≤ timeoutMs ∧
    ((waitForCommand timeoutMs input).1 = false ↔
      ((readLine 256 timeoutMs input []).1 = false ∨
       (readLine 256 timeoutMs input []).2.1.take 4 ≠ "CMD ".toList ∨
       findSub ((readLine 256 timeoutMs input []).2.1.drop 4) kCommandKey = none ∨
       ∃ i, findSub ((readLine 256 timeoutMs input []).2.1.drop 4) kCommandKey = some i ∧
         charIndex '"' ((readLine 256 timeoutMs input []).2.1.drop
           (4 + (i + kCommandKey.length))) = none)) := by
  have htime := readLine_time_le 256 timeoutMs input []
  rcases hr : readLine 256 timeoutMs input [] with ⟨ok, line, tEnd⟩
  rw [hr] at htime
  simp only at htime
  cases ok
  · simp [waitForCommand, hr, htime]
  · by_cases hp : List.take 4 line = ['C', 'M', 'D', ' ']
    · rcases hf : findSub (line.drop 4) kCommandKey with _ | i
      · simp [waitForCommand, hr, hp, hf, htime]
      · rcases hq : charIndex '"' (line.drop (4 + (i + kCommandKey.length))) with _ | j
        · simp [waitForCommand, hr, hp, hf, hq, htime]
        · simp [waitForCommand, hr, hp, hf, hq, htime]
    · simp [waitForCommand, hr, hp, htime]

/-- C10: whenever `waitForCommand` returns false — on any of its failure
paths — the caller-supplied out-parameter is in the cleared state written
at entry (WifiLink.cpp lines 124-125): empty name and zero duration. -/
theorem C10_failure_leaves_command_empty (timeoutMs : Nat) (input : List (Nat × Char))
    (h : (waitForCommand timeoutMs input).1 = false) :
    (waitForCommand timeoutMs input).2.1 = ⟨[], 0⟩ := by
  rcases hr : readLine 256 timeoutMs input [] with ⟨ok, line, tEnd⟩
  cases ok
  · simp [waitForCommand, hr]
  · by_cases hp : List.take 4 line = ['C', 'M', 'D', ' ']
    · rcases hf : findSub (line.drop 4) kCommandKey with _ | i
      · simp [waitForCommand, hr, hp, hf]
      · rcases hq : charIndex '"' (line.drop (4 + (i + kCommandKey.length))) with _ | j
        · simp [waitForCommand, hr, hp, hf, hq]
        · exfalso
          simp [waitForCommand, hr, hp, hf, hq] at h
    · simp [waitForCommand, hr, hp]

/-- Witness for C10: empty input times out and the out-parameter is the
cleared command. -/
theorem C10_witness :
    (waitForCommand 100 []).1 = false ∧ (waitForCommand 100 []).2.1 = ⟨[], 0⟩ :=
  ⟨by decide, C10_failure_leaves_command_empty 100 [] (by decide)⟩


/-- The retry loop succeeds exactly when some attempt within the fuel
budget sees a matching acknowledgement. -/
theorem sendChunkLoop_true_iff (e : Nat) (lines : Nat → List (List Char)) :
    ∀ (fuel start : Nat), (sendChunkLoop e lines start fuel).1 = true ↔
      ∃ r < fuel, waitForAck e (lines (start + r)) = true := by
  intro fuel
  induction fuel with
  | zero => intro start; simp [sendChunkLoop]
  | succ n ih =>
    intro start
    by_cases h : waitForAck e (lines start) = true
    · simp [sendChunkLoop, h]
      exact ⟨0, by omega, h⟩
    · simp [sendChunkLoop, h, ih (start + 1)]
      constructor
      · rintro ⟨r, hr, hack⟩
        refine ⟨r + 1, by omega, ?_⟩
        rw [show start + (r + 1) = start + 1 + r by omega]
        exact hack
      · rintro ⟨r, hr, hack⟩
        match r with
        | 0 => exact absurd hack h
        | r + 1 =>
          refine ⟨r, by omega, ?_⟩
          rw [show start + 1 + r = start + (r + 1) by omega]
          exact hack

/-- `sendChunkWithAck` succeeds exactly when one of the `MAX_RETRIES`
attempts sees a matching acknowledgement. -/
theorem sendChunkWithAck_true_iff (e : Nat) (lines : Nat → List (List Char)) :
    (sendChunkWithAck e lines).1 = true ↔
      ∃ r < MAX_RETRIES, waitForAck e (lines r) = true := by
  rw [sendChunkWithAck, sendChunkLoop_true_iff]
  simp

/-- `base64_encode` succeeds whenever the output buffer is large enough. -/
theorem base64_encode_eq_some (input : List Nat) (outputLen : Nat)
    (h : base64_encode_length input.length ≤ outputLen) :
    base64_encode input outputLen =
      some (padFix (input.length % 3) (encodeTriples input)) := by
  rw [base64_encode, if_neg (by omega)]

/-- The slice taken for any chunk index fits `CHUNK_RAW_SIZE` bytes. -/
theorem chunkSlice_length_le (data : List Nat) (i : Nat) :
    (chunkSlice data i).length ≤ CHUNK_RAW_SIZE := by
  simp only [chunkSlice, chunkLenOf, CHUNK_RAW_SIZE, List.length_take, List.length_drop]
  split <;> omega

/-- Inside the chunk loop the `CHUNK_BASE64_SIZE + 1` buffer always
suffices: a chunk holds at most `CHUNK_RAW_SIZE` bytes, so the encoder
never fails there. -/
theorem chunk_encode_some (data : List Nat) (i : Nat) :
    base64_encode (chunkSlice data i) (CHUNK_BASE64_SIZE + 1) =
      some (padFix ((chunkSlice data i).length % 3) (encodeTriples (chunkSlice data i))) := by
  apply base64_encode_eq_some
  have h := chunkSlice_length_le data i
  simp only [base64_encode_length, CHUNK_BASE64_SIZE]
  simp only [CHUNK_RAW_SIZE] at h
  omega

/-- `sendChunks` succeeds exactly when every listed chunk is
acknowledged. -/
theorem sendChunks_true_iff (data : List Nat)
    (ackLines : Nat → Nat → List (List Char)) (idxs : List Nat) :
    (sendChunks data ackLines idxs).2 = true ↔
      ∀ i ∈ idxs, (sendChunkWithAck i (ackLines i)).1 = true := by
  induction idxs with
  | nil => simp [sendChunks]
  | cons i rest ih =>
    rcases hs : sendChunkWithAck i (ackLines i) with ⟨ok, n⟩
    cases ok
    · simp only [sendChunks, chunk_encode_some data i, hs]
      simp only [Bool.false_eq_true, if_false]
      constructor
      · intro hfalse; exact absurd hfalse (by simp)
      · intro hall
        have h0 := hall i (by simp)
        rw [hs] at h0
        exact absurd h0 (by simp)
    · simp only [sendChunks, chunk_encode_some data i, hs, if_true]
      simp only [ih]
      constructor
      · intro hall j hj
        rcases List.mem_cons.mp hj with hj | hj
        · subst hj; rw [hs]
        · exact hall j hj
      · intro hall j hj
        exact hall j (List.mem_cons_of_mem _ hj)

/-- `IMG_END` appears in the chunk loop's output exactly when the loop
succeeded. -/
theorem sendChunks_imgEnd_iff (data : List Nat)
    (ackLines : Nat → Nat → List (List Char)) (idxs : List Nat) :
    LinkMsg.imgEnd ∈ (sendChunks data ackLines idxs).1 ↔
      (sendChunks data ackLines idxs).2 = true := by
  induction idxs with
  | nil => simp [sendChunks]
  | cons i rest ih =>
    rcases hs : sendChunkWithAck i (ackLines i) with ⟨ok, n⟩
    cases ok
    · simp [sendChunks, chunk_encode_some data i, hs, List.mem_replicate]
    · simp [sendChunks, chunk_encode_some data i, hs, List.mem_replicate, ih]

/-- A chunk that exhausts its retries makes the loop fail and emit the
`IMG_ABORT` line. -/
theorem sendChunks_abort_of_fail (data : List Nat)
    (ackLines : Nat → Nat → List (List Char)) (idxs : List Nat)
    (h : ∃ i ∈ idxs, (sendChunkWithAck i (ackLines i)).1 = false) :
    (sendChunks data ackLines idxs).2 = false ∧
      LinkMsg.imgAbort ∈ (sendChunks data ackLines idxs).1 := by
  induction idxs with
  | nil => simp at h
  | cons i rest ih =>
    rcases hs : sendChunkWithAck i (ackLines i) with ⟨ok, n⟩
    cases ok
    · simp [sendChunks, chunk_encode_some data i, hs, List.mem_replicate]
    · obtain ⟨j, hj, hjf⟩ := h
      rcases List.mem_cons.mp hj with hj | hj
      · subst hj; rw [hs] at hjf; cases hjf
      · have := ih ⟨j, hj, hjf⟩
        simp [sendChunks, chunk_encode_some data i, hs, List.mem_replicate, this.1, this.2]

/-- C6: with the handshake accepted, a chunk for which no acknowledgement
carrying the matching index arrives in any of the 3 attempts (a `NAK` or an
index mismatch never counts as success — `waitForAck` returns true only on
a matching `ACK`) makes the transfer emit the `IMG_ABORT` line and fail
without ever emitting `IMG_END`; and `IMG_END` is emitted only when every
chunk was acknowledged within its 3 attempts. -/
theorem C6_retry_exhaustion_aborts_without_end (data : List Nat)
    (width height : Nat) (l : List Char) (ackLines : Nat → Nat → List (List Char))
    (hready : l.take 9 = "IMG_READY".toList)
    (hfail : ∃ k < totalChunksOf data.length, ∀ r < MAX_RETRIES,
      waitForAck k (ackLines k r) = false) :
    ((sendImageChunked data width height (some l) ackLines).1 = false ∧
     LinkMsg.imgAbort ∈ (sendImageChunked data width height (some l) ackLines).2 ∧
     LinkMsg.imgEnd ∉ (sendImageChunked data width height (some l) ackLines).2) ∧
    (∀ (ready2 : Option (List Char)) (ackLines2 : Nat → Nat → List (List Char)),
      LinkMsg.imgEnd ∈ (sendImageChunked data width height ready2 ackLines2).2 →
      ∀ k < totalChunksOf data.length, ∃ r < MAX_RETRIES,
        waitForAck k (ackLines2 k r) = true) := by
  constructor
  · obtain ⟨k, hk, hkf⟩ := hfail
    have hchunk : (sendChunkWithAck k (ackLines k)).1 = false := by
      rw [Bool.eq_false_iff]
      intro htrue
      obtain ⟨r, hr, hack⟩ := (sendChunkWithAck_true_iff k (ackLines k)).mp htrue
      rw [hkf r hr] at hack
      cases hack
    have habort := sendChunks_abort_of_fail data ackLines
      (List.range (totalChunksOf data.length)) ⟨k, List.mem_range.mpr hk, hchunk⟩
    have hnoEnd : LinkMsg.imgEnd ∉
        (sendChunks data ackLines (List.range (totalChunksOf data.length))).1 := by
      rw [sendChunks_imgEnd_iff, habort.1]
      simp
    have hready' : List.take 9 l = ['I', 'M', 'G', '_', 'R', 'E', 'A', 'D', 'Y'] := hready
    refine ⟨?_, ?_, ?_⟩ <;> simp [sendImageChunked, hready', habort.1, habort.2, hnoEnd]
  · intro ready2 ackLines2 hmem k hk
    rcases ready2 with _ | l2
    · simp [sendImageChunked] at hmem
    · by_cases h2 : List.take 9 l2 = ['I', 'M', 'G', '_', 'R', 'E', 'A', 'D', 'Y']
      · simp only [sendImageChunked, h2, if_true] at hmem
        rcases List.mem_cons.mp hmem with hmem | hmem
        · cases hmem
        · have hok := (sendChunks_imgEnd_iff data ackLines2 _).mp hmem
          have := (sendChunks_true_iff data ackLines2 _).mp hok k (List.mem_range.mpr hk)
          exact (sendChunkWithAck_true_iff k (ackLines2 k)).mp this
      · simp [sendImageChunked, h2] at hmem

/-- Witness for C6: a one-byte, one-chunk image, the handshake answered,
and a gateway that never acknowledges: the transfer fails with `IMG_ABORT`
and no `IMG_END`. -/
theorem C6_witness :
    (sendImageChunked [1] 80 60 (some "IMG_READY".toList) (fun _ _ => [])).1 = false ∧
    LinkMsg.imgAbort ∈ (sendImageChunked [1] 80 60 (some "IMG_READY".toList)
      (fun _ _ => [])).2 ∧
    LinkMsg.imgEnd ∉ (sendImageChunked [1] 80 60 (some "IMG_READY".toList)
      (fun _ _ => [])).2 :=
  (C6_retry_exhaustion_aborts_without_end [1] 80 60 "IMG_READY".toList (fun _ _ => [])
    rfl ⟨0, by decide, fun r _ => rfl⟩).1

/-! ## CRC16 equivalence with the bit-serial reference

`crcShift` is xor-linear on the 16-bit register, the reference bit step is
`crcShift` after xoring the message bit into bit 15, and the two byte
steps therefore differ only in a register-independent constant, checked by
computation for all 256 byte values. -/

theorem xor_mod_two_pow (a b n : Nat) :
    (a ^^^ b) % 2 ^ n = (a % 2 ^ n) ^^^ (b % 2 ^ n) := by
  apply Nat.eq_of_testBit_eq
  intro i
  by_cases h : i < n <;>
    simp [Nat.testBit_mod_two_pow, Nat.testBit_xor, h]

theorem xor_mod_65536 (a b : Nat) :
    (a ^^^ b) % 65536 = (a % 65536) ^^^ (b % 65536) := by
  have h : (65536 : Nat) = 2 ^ 16 := by norm_num
  rw [h, xor_mod_two_pow]

theorem shiftLeft_xor (a b n : Nat) : (a ^^^ b) <<< n = (a <<< n) ^^^ (b <<< n) := by
  apply Nat.eq_of_testBit_eq
  intro i
  by_cases h : n ≤ i <;> simp [Nat.testBit_shiftLeft, Nat.testBit_xor, h]

theorem shiftLeft_mod_pow (x n k : Nat) :
    ((x % 2 ^ n) <<< k) % 2 ^ n = (x <<< k) % 2 ^ n := by
  apply Nat.eq_of_testBit_eq
  intro i
  by_cases hi : i < n
  · by_cases hk : k ≤ i
    · simp [Nat.testBit_mod_two_pow, Nat.testBit_shiftLeft, hi, hk,
        show i - k < n by omega]
    · simp [Nat.testBit_mod_two_pow, Nat.testBit_shiftLeft, hi, hk]
  · simp [Nat.testBit_mod_two_pow, Nat.testBit_shiftLeft, hi]

theorem shiftLeft_mod_65536 (x : Nat) :
    ((x % 65536) <<< 1) % 65536 = (x <<< 1) % 65536 := by
  have h : (65536 : Nat) = 2 ^ 16 := by norm_num
  rw [h]
  exact shiftLeft_mod_pow x 16 1

theorem crcShift_eq (x : Nat) :
    crcShift x = ((x <<< 1) % 65536) ^^^ (if x.testBit 15 then 0x1021 else 0) := by
  have hand : x &&& 0x8000 = (x.testBit 15).toNat * 2 ^ 15 := by
    have := Nat.and_two_pow x 15
    norm_num at this ⊢
    exact this
  cases h : x.testBit 15 with
  | false =>
    simp only [crcShift, hand, h]
    norm_num
  | true =>
    simp only [crcShift, hand, h]
    norm_num
    rw [xor_mod_65536]

theorem xor_cancel_left (a b : Nat) : a ^^^ (a ^^^ b) = b := by
  rw [← Nat.xor_assoc, Nat.xor_self, Nat.zero_xor]

theorem xor_rot (a b c : Nat) : a ^^^ (b ^^^ c) = b ^^^ (a ^^^ c) := by
  rw [← Nat.xor_assoc, Nat.xor_comm a b, Nat.xor_assoc]

theorem crcShift_linear (x y : Nat) :
    crcShift (x ^^^ y) = crcShift x ^^^ crcShift y := by
  rw [crcShift_eq, crcShift_eq, crcShift_eq, shiftLeft_xor, xor_mod_65536,
    Nat.testBit_xor]
  cases hx : x.testBit 15 <;> cases hy : y.testBit 15 <;> simp [hx, hy]
  · exact Nat.xor_assoc _ _ _
  · rw [Nat.xor_assoc (x <<< 1 % 65536) (y <<< 1 % 65536) 4129,
      Nat.xor_comm (y <<< 1 % 65536) 4129,
      ← Nat.xor_assoc (x <<< 1 % 65536) 4129 (y <<< 1 % 65536)]
  · rw [Nat.xor_assoc (x <<< 1 % 65536) 4129 (y <<< 1 % 65536 ^^^ 4129),
      xor_rot 4129 (y <<< 1 % 65536) 4129, Nat.xor_self, Nat.xor_zero]

theorem crcShift_iterate_linear (n : Nat) : ∀ x y : Nat,
    crcShift^[n] (x ^^^ y) = crcShift^[n] x ^^^ crcShift^[n] y := by
  induction n with
  | zero => intro x y; simp
  | succ m ih =>
    intro x y
    rw [Function.iterate_succ_apply, Function.iterate_succ_apply,
      Function.iterate_succ_apply, crcShift_linear, ih]

theorem crcShift_mod (x : Nat) : crcShift (x % 65536) = crcShift x := by
  rw [crcShift_eq, crcShift_eq, shiftLeft_mod_65536]
  have ht : (x % 65536).testBit 15 = x.testBit 15 := by
    have h : (65536 : Nat) = 2 ^ 16 := by norm_num
    rw [h, Nat.testBit_mod_two_pow]
    simp
  rw [ht]

theorem crcShift_iterate_mod (n : Nat) (x : Nat) :
    crcShift^[n + 1] (x % 65536) = crcShift^[n + 1] x := by
  rw [Function.iterate_succ_apply, Function.iterate_succ_apply, crcShift_mod]

theorem crcRefBit_eq_shift (c : Nat) (bit : Bool) :
    crcRefBit c bit = crcShift (c ^^^ cond bit 32768 0) := by
  cases bit with
  | false =>
    simp only [cond_false, Nat.xor_zero]
    rw [crcRefBit, crcShift_eq]
    cases h : c.testBit 15 <;> simp [h]
    rw [xor_mod_65536]
  | true =>
    simp only [cond_true]
    rw [crcRefBit, crcShift_eq]
    have h32 : Nat.testBit 32768 15 = true := by decide
    have ht : (c ^^^ 32768).testBit 15 = !c.testBit 15 := by
      rw [Nat.testBit_xor, h32, Bool.xor_true]
    rw [ht, shiftLeft_xor, xor_mod_65536 (c <<< 1) (32768 <<< 1)]
    have h15 : (32768 : Nat) <<< 1 % 65536 = 0 := by decide
    rw [h15, Nat.xor_zero]
    cases h : c.testBit 15 <;> simp [h]
    rw [xor_mod_65536 (c <<< 1) 4129]

theorem crcRefBit_linear (x y : Nat) (bit : Bool) :
    crcRefBit (x ^^^ y) bit = crcShift x ^^^ crcRefBit y bit := by
  rw [crcRefBit_eq_shift, crcRefBit_eq_shift, Nat.xor_assoc, crcShift_linear]

theorem foldl_crcRefBit_linear (f : Nat → Bool) (ks : List Nat) : ∀ x y : Nat,
    ks.foldl (fun acc k => crcRefBit acc (f k)) (x ^^^ y) =
      crcShift^[ks.length] x ^^^ ks.foldl (fun acc k => crcRefBit acc (f k)) y := by
  induction ks with
  | nil => intro x y; simp
  | cons k ks ih =>
    intro x y
    simp only [List.foldl_cons, List.length_cons]
    rw [crcRefBit_linear, ih (crcShift x) (crcRefBit y (f k)),
      ← Function.iterate_succ_apply]

theorem crcRefByte_linear (c b : Nat) :
    crcRefByte c b = crcShift^[8] c ^^^ crcRefByte 0 b := by
  have h := foldl_crcRefBit_linear (fun k => b.testBit (7 - k)) (List.range 8) c 0
  simp only [Nat.xor_zero, List.length_range] at h
  rw [crcRefByte, crcRefByte]
  exact h

theorem crcByte_linear (c b : Nat) :
    crcByte c b = crcShift^[8] c ^^^ crcByte 0 b := by
  rw [crcByte, crcByte, Nat.zero_xor,
    show (8 : Nat) = 7 + 1 from rfl, crcShift_iterate_mod, crcShift_iterate_mod,
    crcShift_iterate_linear]

theorem crcByte_eq_ref_zero : ∀ b < 256, crcByte 0 b = crcRefByte 0 b := by
  decide

theorem crcByte_eq_ref (c b : Nat) (hb : b < 256) : crcByte c b = crcRefByte c b := by
  rw [crcByte_linear, crcRefByte_linear, crcByte_eq_ref_zero b hb]

theorem crc16_eq_ref_aux (data : List Nat) (hb : ∀ b ∈ data, b < 256) :
    ∀ init : Nat, data.foldl crcByte init = data.foldl crcRefByte init := by
  induction data with
  | nil => intro init; rfl
  | cons b rest ih =>
    intro init
    simp only [List.foldl_cons]
    rw [crcByte_eq_ref init b (hb b (by simp))]
    exact ih (fun x hx => hb x (by simp [hx])) _

/-- C8: the CRC computed over the image payload by `crc16_ccitt` equals
the reference bit-serial CRC16-CCITT (polynomial 0x1021, initial value
0xFFFF, MSB-first, no final XOR) on every byte sequence; the CRC of the
empty input is 0xFFFF, and the published check value for the bytes of
"123456789" is 0x29B1.  Determinism holds because `crc16_ccitt` is a pure
function of its input. -/
theorem C8_crc16_matches_reference (data : List Nat) (hb : ∀ b ∈ data, b < 256) :
    crc16_ccitt data = crc16_ref data ∧ crc16_ccitt [] = 0xFFFF ∧
    crc16_ccitt [49, 50, 51, 52, 53, 54, 55, 56, 57] = 0x29B1 :=
  ⟨crc16_eq_ref_aux data hb 0xFFFF, rfl, by decide⟩

/-- Witness for C8 on a concrete two-byte payload. -/
theorem C8_witness :
    crc16_ccitt [0, 255] = crc16_ref [0, 255] ∧ crc16_ccitt [] = 0xFFFF ∧
    crc16_ccitt [49, 50, 51, 52, 53, 54, 55, 56, 57] = 0x29B1 :=
  C8_crc16_matches_reference [0, 255] (by decide)

/-! ## base64 round trip -/

theorem b64val_b64char : ∀ v < 64, b64val (b64char v) = v := by decide

theorem b64char_ne_eq : ∀ v < 64, b64char v ≠ '=' := by decide

theorem b64char_mem : ∀ v < 64, b64char v ∈ base64_chars := by decide

theorem and_63_eq_mod (x : Nat) : x &&& 63 = x % 64 := by
  have h : (63 : Nat) = 2 ^ 6 - 1 := by norm_num
  have h2 : (64 : Nat) = 2 ^ 6 := by norm_num
  rw [h, h2, Nat.and_pow_two_sub_one_eq_mod]

theorem and_255_eq_mod (x : Nat) : x &&& 255 = x % 256 := by
  have h : (255 : Nat) = 2 ^ 8 - 1 := by norm_num
  have h2 : (256 : Nat) = 2 ^ 8 := by norm_num
  rw [h, h2, Nat.and_pow_two_sub_one_eq_mod]

theorem and_63_lt (x : Nat) : x &&& 63 < 64 := by
  rw [and_63_eq_mod]; omega

theorem decode_quad_full (a b c : Nat) (ha : a < 256) (hb : b < 256) (hc : c < 256)
    (rest : List Char) :
    base64_decode (quadOf ((a <<< 16) + (b <<< 8) + c) ++ rest) =
      a :: b :: c :: base64_decode rest := by
  set t := (a <<< 16) + (b <<< 8) + c with ht
  have htval : t = a * 65536 + b * 256 + c := by
    rw [ht, Nat.shiftLeft_eq, Nat.shiftLeft_eq]
  simp only [quadOf, List.cons_append, List.nil_append, base64_decode]
  rw [if_neg (b64char_ne_eq _ (and_63_lt _)), if_neg (b64char_ne_eq _ (and_63_lt _))]
  rw [b64val_b64char _ (and_63_lt _), b64val_b64char _ (and_63_lt _),
    b64val_b64char _ (and_63_lt _), b64val_b64char _ (and_63_lt _)]
  simp only [and_63_eq_mod, and_255_eq_mod, Nat.shiftRight_eq_div_pow, Nat.shiftLeft_eq]
  norm_num
  constructor
  · omega
  constructor
  · omega
  · omega

theorem decode_quad_one (a : Nat) (ha : a < 256) :
    base64_decode (padFix 1 (quadOf (a <<< 16))) = [a] := by
  have hq : padFix 1 (quadOf (a <<< 16)) =
      [b64char (((a <<< 16) >>> 18) &&& 0x3F), b64char (((a <<< 16) >>> 12) &&& 0x3F),
       '=', '='] := by
    simp [padFix, quadOf, List.dropLast]
  rw [hq]
  simp only [base64_decode, if_pos rfl]
  rw [b64val_b64char _ (and_63_lt _), b64val_b64char _ (and_63_lt _)]
  simp only [and_63_eq_mod, Nat.shiftRight_eq_div_pow, Nat.shiftLeft_eq]
  norm_num
  omega

theorem decode_quad_two (a b : Nat) (ha : a < 256) (hb : b < 256) :
    base64_decode (padFix 2 (quadOf ((a <<< 16) + (b <<< 8)))) = [a, b] := by
  set t := (a <<< 16) + (b <<< 8) with ht
  have htval : t = a * 65536 + b * 256 := by
    rw [ht, Nat.shiftLeft_eq, Nat.shiftLeft_eq]
  have hq : padFix 2 (quadOf t) =
      [b64char ((t >>> 18) &&& 0x3F), b64char ((t >>> 12) &&& 0x3F),
       b64char ((t >>> 6) &&& 0x3F), '='] := by
    simp [padFix, quadOf, List.dropLast]
  rw [hq]
  simp only [base64_decode]
  rw [if_neg (b64char_ne_eq _ (and_63_lt _)), if_pos trivial]
  rw [b64val_b64char _ (and_63_lt _), b64val_b64char _ (and_63_lt _),
    b64val_b64char _ (and_63_lt _)]
  simp only [and_63_eq_mod, and_255_eq_mod, Nat.shiftRight_eq_div_pow, Nat.shiftLeft_eq]
  norm_num
  constructor <;> omega

theorem encodeTriples_two_le_length (l : List Nat) (h : l ≠ []) :
    2 ≤ (encodeTriples l).length := by
  match l with
  | [] => exact absurd rfl h
  | [a] => simp [encodeTriples, quadOf]
  | [a, b] => simp [encodeTriples, quadOf]
  | a :: b :: c :: r => simp [encodeTriples, quadOf]

theorem padFix_append (m : Nat) (q X : List Char) (h : 2 ≤ X.length) :
    padFix m (q ++ X) = q ++ padFix m X := by
  have h1 : X ≠ [] := by intro hX; subst hX; simp at h
  have h2 : X.dropLast ≠ [] := by
    intro hX
    have := congrArg List.length hX
    simp [List.length_dropLast] at this
    omega
  by_cases hm1 : m = 1
  · simp [padFix, hm1, List.dropLast_append_of_ne_nil, h1, h2]
  · by_cases hm2 : m = 2
    · simp [padFix, hm1, hm2, List.dropLast_append_of_ne_nil, h1]
    · simp [padFix, hm1, hm2]

theorem decode_encode (l : List Nat) (hb : ∀ x ∈ l, x < 256) :
    base64_decode (padFix (l.length % 3) (encodeTriples l)) = l := by
  induction l using encodeTriples.induct with
  | case1 => rfl
  | case2 a =>
    exact decode_quad_one a (hb a (by simp))
  | case3 a b =>
    exact decode_quad_two a b (hb a (by simp)) (hb b (by simp))
  | case4 a b c rest ih =>
    have hlen : (a :: b :: c :: rest).length % 3 = rest.length % 3 := by
      simp [List.length_cons]
      omega
    rw [hlen]
    show base64_decode (padFix (rest.length % 3)
      (quadOf ((a <<< 16) + (b <<< 8) + c) ++ encodeTriples rest)) = _
    rcases eq_or_ne rest [] with hr | hr
    · subst hr
      have hfull := decode_quad_full a b c (hb a (by simp)) (hb b (by simp))
        (hb c (by simp)) []
      simp only [List.append_nil] at hfull
      simpa [encodeTriples, padFix, base64_decode] using hfull
    · rw [padFix_append _ _ _ (encodeTriples_two_le_length rest hr)]
      rw [decode_quad_full a b c (hb a (by simp)) (hb b (by simp)) (hb c (by simp))]
      rw [ih (fun x hx => hb x (by simp [hx]))]

theorem encodeTriples_mem_alphabet (l : List Nat) :
    ∀ ch ∈ encodeTriples l, ch ∈ base64_chars := by
  induction l using encodeTriples.induct with
  | case1 => simp [encodeTriples]
  | case2 a =>
    intro ch hch
    simp [encodeTriples, quadOf] at hch
    rcases hch with h | h | h | h <;> (subst h; exact b64char_mem _ (and_63_lt _))
  | case3 a b =>
    intro ch hch
    simp [encodeTriples, quadOf] at hch
    rcases hch with h | h | h | h <;> (subst h; exact b64char_mem _ (and_63_lt _))
  | case4 a b c rest ih =>
    intro ch hch
    simp [encodeTriples, quadOf] at hch
    rcases hch with h | h | h | h | h
    · subst h; exact b64char_mem _ (and_63_lt _)
    · subst h; exact b64char_mem _ (and_63_lt _)
    · subst h; exact b64char_mem _ (and_63_lt _)
    · subst h; exact b64char_mem _ (and_63_lt _)
    · exact ih ch h

theorem padFix_mem_alphabet (l : List Nat) :
    ∀ ch ∈ padFix (l.length % 3) (encodeTriples l), ch ∈ base64_chars ∨ ch = '=' := by
  intro ch hch
  unfold padFix at hch
  split_ifs at hch
  · rcases List.mem_append.mp hch with h | h
    · exact Or.inl (encodeTriples_mem_alphabet l ch
        (List.dropLast_subset _ (List.dropLast_subset _ h)))
    · right; simpa using h
  · rcases List.mem_append.mp hch with h | h
    · exact Or.inl (encodeTriples_mem_alphabet l ch (List.dropLast_subset _ h))
    · right; simpa using h
  · exact Or.inl (encodeTriples_mem_alphabet l ch hch)

/-- C9: for every byte sequence that fits the output buffer,
`base64_encode` succeeds, its output decodes back to the input under the
reference base64 decoder, every output character is in the standard
alphabet or is the `'='` pad, and the empty input encodes to the empty
string. -/
theorem C9_base64_encode_round_trip (l : List Nat) (outputLen : Nat)
    (hb : ∀ x ∈ l, x < 256) (hlen : base64_encode_length l.length ≤ outputLen) :
    ∃ enc, base64_encode l outputLen = some enc ∧ base64_decode enc = l ∧
      (∀ ch ∈ enc, ch ∈ base64_chars ∨ ch = '=') ∧ (l = [] → enc = []) := by
  refine ⟨padFix (l.length % 3) (encodeTriples l),
    base64_encode_eq_some l outputLen hlen, decode_encode l hb,
    padFix_mem_alphabet l, ?_⟩
  intro h
  subst h
  rfl

/-- Witness for C9 on the bytes of "Man". -/
theorem C9_witness :
    ∃ enc, base64_encode [77, 97, 110] 257 = some enc ∧ base64_decode enc = [77, 97, 110] ∧
      (∀ ch ∈ enc, ch ∈ base64_chars ∨ ch = '=') ∧ ([77, 97, 110] = ([] : List Nat) → enc = []) :=
  C9_base64_encode_round_trip [77, 97, 110] 257 (by decide) (by decide)
